import Mathlib

/-!
Verification development for the arangodump client core (DumpFeature.cpp):
the per-database dump loop, batch-session lifecycle, the classical
per-collection pull loop with its adaptive chunk sizing, the parallel
per-dbserver dump pipeline with its retry loops and block-counter
telemetry, and the output-file naming scheme.

Each C++ routine that a claim touches is shallowly embedded as an
executable Lean function.  External collaborators (HTTP transport, the
gzip codec, the MD5 digest, name validators, the masking filter) are
modelled as explicit inputs of the embedded functions, exactly at the
points where the C++ code calls out to them.
-/

namespace ArangoDump

/- ### DumpFeature.start: the per-database loop

The C++ loop is

    for (auto const db : databases) \x7b
      ...
      res = runClusterDump(...) / runSingleDump(...);   // overwrites res
      ...
      if (res.fail() && !force) break;
    \x7d
    if (res.fail()) _exitCode = EXIT_FAILURE;

We embed it over the list of per-database outcomes (true = the Result of
dumping that database failed), returning the final value of res together
with the number of databases actually processed. -/

/-- Embedding of the database loop body of DumpFeature.start: res is the
running Result variable (true = failed); each element of the list is the
outcome of runClusterDump and runSingleDump for one database. -/
def runDatabasesLoop (force : Bool) (res : Bool) : List Bool → Bool × Nat
  | [] => (res, 0)
  | r :: rest =>
    if r && !force then
      (r, 1)
    else
      let p := runDatabasesLoop force r rest
      (p.1, p.2 + 1)

/-- The loop of DumpFeature.start entered with the initial (succeeding)
Result res. -/
def processDatabases (force : Bool) (outcomes : List Bool) : Bool × Nat :=
  runDatabasesLoop force false outcomes

/-- Exit-code computation at the end of DumpFeature.start: EXIT_FAILURE
(modelled as 1) exactly when the final value of res failed, EXIT_SUCCESS
(0) otherwise. -/
def dumpExitCode (force : Bool) (outcomes : List Bool) : Nat :=
  if (processDatabases force outcomes).1 then 1 else 0

/-- The last element of a list of outcomes, with a default for the empty
list.  Used to describe what the loop above actually computes. -/
def lastOutcome (res : Bool) : List Bool → Bool
  | [] => res
  | r :: rest => lastOutcome r rest

/- ### DumpFeature.start: auto-enabling include-system-collections -/

/-- The C++ test name.starts_with(underscore), expressed on the character
list of the name. -/
def startsWithUnderscore (name : String) : Bool :=
  match name.data with
  | [] => false
  | c :: _ => c == '_'

/-- Embedding of the statement
options.includeSystemCollections |= any_of(collections, starts_with underscore)
executed in DumpFeature.start before each per-database dump. -/
def autoIncludeSystemCollections (includeSystemCollections : Bool)
    (collections : List String) : Bool :=
  includeSystemCollections || collections.any startsWithUnderscore

/-- Embedding of the system-collection filter of DumpFeature.runDump:
a collection is skipped as a system collection when its name starts with
an underscore and includeSystemCollections is off. -/
def excludedAsSystem (includeSystemCollections : Bool) (name : String) : Bool :=
  startsWithUnderscore name && !includeSystemCollections

/- ### endBatch -/

/-- Embedding of the helper endBatch.  The DELETE request is issued to the
constructed URL; its response is ignored (the C++ comment reads: ignore
any return value), and the caller-provided batch id variable is then
overwritten with 0.  The HTTP outcome is therefore a parameter that the
function does not consume, and urlEncodeF stands for the external
StringUtils.urlEncode.  The returned pair is (request URL, new value of
the batch id variable). -/
def endBatch (urlEncodeF : String → String) (clientIdStr : String)
    (DBserver : String) (_requestSucceeded : Bool) (batchId : Nat) :
    String × Nat :=
  let url := "/_api/replication/batch/" ++ toString batchId ++
    "?serverId=" ++ clientIdStr
  let url := if DBserver = "" then url
    else url ++ "&DBserver=" ++ urlEncodeF DBserver
  (url, 0)

/- ### ParallelDumpServer.createDumpContext: bounded retry loop

The C++ loop is

    size_t retryCount = 100;
    while (true) \x7b
      response = client.request(POST, url, body);
      check = HttpResponseChecker.check(...);
      if (check.fail()) \x7b
        bool retry = shouldRetryRequest(response, check);
        if (retry && --retryCount > 0) continue;
        ... FATAL_ERROR_EXIT();
      \x7d else break;
    \x7d

We embed the transport as a stream mapping the index of the attempt to
its classified outcome. -/

/-- Classified outcome of one POST /_api/dump/start attempt: the check
succeeded, or it failed and shouldRetryRequest said retry, or it failed
fatally. -/
inductive CreateResp where
  | success
  | retryableFail
  | fatalFail
deriving DecidableEq

/-- Result of the createDumpContext retry loop, carrying the total number
of HTTP attempts that were issued.  aborted corresponds to
FATAL_ERROR_EXIT, which terminates the whole process. -/
inductive CreateLoopResult where
  | completed (attempts : Nat)
  | aborted (attempts : Nat)
deriving DecidableEq

/-- Number of HTTP attempts the loop issued. -/
def CreateLoopResult.attempts : CreateLoopResult → Nat
  | completed a => a
  | aborted a => a

/-- Embedding of the createDumpContext retry loop.  retryCount is the C++
counter (entered with 100); on a retryable failure the counter is
pre-decremented and the loop continues only while it stays positive.
The retryCount = 0 branch of the retryable case is unreachable from the
entry value 100, because the decrement guard already aborts when the
counter reaches 1 (in C++ it would wrap around below 0). -/
def createDumpContextLoop (resp : Nat → CreateResp) :
    Nat → Nat → CreateLoopResult
  | attempt, retryCount =>
    match resp attempt with
    | CreateResp.success => CreateLoopResult.completed (attempt + 1)
    | CreateResp.fatalFail => CreateLoopResult.aborted (attempt + 1)
    | CreateResp.retryableFail =>
      match retryCount with
      | 0 => CreateLoopResult.aborted (attempt + 1)
      | rc + 1 =>
        if 0 < rc then createDumpContextLoop resp (attempt + 1) rc
        else CreateLoopResult.aborted (attempt + 1)

/-- createDumpContext as invoked: first attempt has index 0, retryCount
starts at 100. -/
def createDumpContext (resp : Nat → CreateResp) : CreateLoopResult :=
  createDumpContextLoop resp 0 100

/- ### ParallelDumpServer.receiveNextBatch: bounded retry loop

    std::size_t retryCounter = 100;
    while (true) \x7b
      response = client.request(POST, url);
      check = ...;
      if (check.fail()) \x7b
        bool retry = shouldRetryRequest(response, check);
        if (!retry || --retryCounter == 0) \x7b ... FATAL_ERROR_EXIT(); \x7d
      \x7d else if (code == 204) return nullptr;
      else if (code == 200) return response;
      else \x7b ... FATAL_ERROR_EXIT(); \x7d
    \x7d -/

/-- Classified outcome of one POST /_api/dump/next attempt. -/
inductive NextResp where
  | ok200
  | ok204
  | okOther
  | retryableFail
  | fatalFail
deriving DecidableEq

/-- Result of the receiveNextBatch retry loop with the number of HTTP
attempts issued: a batch (HTTP 200), server exhaustion (HTTP 204, the
function returns nullptr), or FATAL_ERROR_EXIT. -/
inductive NextLoopResult where
  | gotBatch (attempts : Nat)
  | exhausted (attempts : Nat)
  | aborted (attempts : Nat)
deriving DecidableEq

/-- Number of HTTP attempts the loop issued. -/
def NextLoopResult.attempts : NextLoopResult → Nat
  | gotBatch a => a
  | exhausted a => a
  | aborted a => a

/-- Embedding of the receiveNextBatch retry loop.  On a retryable failure
the counter is pre-decremented and the loop aborts when it reaches 0.
As above, the retryCount = 0 case of the retryable branch is unreachable
from the entry value 100. -/
def receiveNextBatchLoop (resp : Nat → NextResp) :
    Nat → Nat → NextLoopResult
  | attempt, retryCount =>
    match resp attempt with
    | NextResp.ok204 => NextLoopResult.exhausted (attempt + 1)
    | NextResp.ok200 => NextLoopResult.gotBatch (attempt + 1)
    | NextResp.okOther => NextLoopResult.aborted (attempt + 1)
    | NextResp.fatalFail => NextLoopResult.aborted (attempt + 1)
    | NextResp.retryableFail =>
      match retryCount with
      | 0 => NextLoopResult.aborted (attempt + 1)
      | rc + 1 =>
        if 0 < rc then receiveNextBatchLoop resp (attempt + 1) rc
        else NextLoopResult.aborted (attempt + 1)

/-- receiveNextBatch as invoked: first attempt has index 0, retryCounter
starts at 100. -/
def receiveNextBatch (resp : Nat → NextResp) : NextLoopResult :=
  receiveNextBatchLoop resp 0 100

/- ### dumpCollection: adaptive chunk sizing

Option validation (DumpFeature.validateOptions) clamps
initialChunkSize into [MinChunkSize, MaxChunkSize] and maxChunkSize into
[initialChunkSize, MaxChunkSize].  The growth step at the end of the
dumpCollection pull loop is

    if (chunkSize < maxChunkSize) \x7b
      chunkSize = static_cast<uint64_t>(chunkSize * 1.5);
      if (chunkSize > maxChunkSize) chunkSize = maxChunkSize;
    \x7d

chunkSize * 1.5 is computed in double precision; every chunk size is at
most MaxChunkSize = 96 MiB < 2 ^ 27, so the product 3 * chunkSize / 2 is
exact in double and the cast back truncates, giving exactly
chunkSize + chunkSize / 2 in integer arithmetic. -/

/-- MinChunkSize of DumpFeature.cpp: 128 KiB. -/
def MinChunkSize : Nat := 1024 * 128

/-- MaxChunkSize of DumpFeature.cpp: 96 MiB. -/
def MaxChunkSize : Nat := 1024 * 1024 * 96

/-- std::clamp(initialChunkSize, MinChunkSize, MaxChunkSize) from
DumpFeature.validateOptions. -/
def clampedInitialChunkSize (user : Nat) : Nat :=
  max MinChunkSize (min user MaxChunkSize)

/-- std::clamp(maxChunkSize, clamped initialChunkSize, MaxChunkSize)
from DumpFeature.validateOptions. -/
def clampedMaxChunkSize (userMax initial : Nat) : Nat :=
  max initial (min userMax MaxChunkSize)

/-- One growth step of the dumpCollection chunk size. -/
def nextChunkSize (maxChunkSize chunkSize : Nat) : Nat :=
  if chunkSize < maxChunkSize then
    let grown := chunkSize + chunkSize / 2
    if grown > maxChunkSize then maxChunkSize else grown
  else chunkSize

/-- The chunk size used by the n-th request of the dumpCollection pull
loop (index 0 is the first request, which uses initialChunkSize). -/
def chunkSizeTrace (maxChunkSize initialChunkSize : Nat) : Nat → Nat
  | 0 => initialChunkSize
  | n + 1 => nextChunkSize maxChunkSize (chunkSizeTrace maxChunkSize initialChunkSize n)

/- ### Batch-session lifecycle

DumpFeature.DumpShardJob.run is

    auto [res, batchId] = startBatch(client, server);
    if (res.ok()) \x7b
      res = dumpCollection(client, *this, *file, shardName, server, batchId);
      endBatch(client, server, batchId);
    \x7d
    return res;

There is no scope guard here: dumpCollection can throw (for example
THROW_ARANGO_EXCEPTION when gzip inflation fails), and then the sequential
endBatch call after it is skipped.  DumpFeature.runSingleDump, in
contrast, ends its batch inside an arangodb::scopeGuard, which fires on
every exit path.  We embed both as the sequence of session events they
produce. -/

/-- How the pull (dumpCollection, or runDump inside runSingleDump)
terminates: with a succeeding Result, with a failing Result, or by
throwing an exception. -/
inductive PullOutcome where
  | succeeded
  | failedResult
  | raised
deriving DecidableEq

/-- True exactly for the exception outcome. -/
def PullOutcome.isRaised : PullOutcome → Bool
  | raised => true
  | _ => false

/-- Observable batch-session events of one job. -/
inductive BatchEvent where
  | startBatchOk
  | startBatchFail
  | pullData
  | endBatchCall
deriving DecidableEq

/-- Event trace of DumpFeature.DumpShardJob.run: endBatch runs only when
dumpCollection returns normally; a thrown exception propagates to the
worker (processJob) before endBatch is reached. -/
def dumpShardJobEvents (startOk : Bool) (pull : PullOutcome) :
    List BatchEvent :=
  if startOk then
    match pull with
    | PullOutcome.raised => [BatchEvent.startBatchOk, BatchEvent.pullData]
    | _ => [BatchEvent.startBatchOk, BatchEvent.pullData,
            BatchEvent.endBatchCall]
  else [BatchEvent.startBatchFail]

/-- Event trace of DumpFeature.runSingleDump: after a successful
startBatch, endBatch is called from a scopeGuard, hence also when runDump
throws. -/
def runSingleDumpEvents (startOk : Bool) (pull : PullOutcome) :
    List BatchEvent :=
  let _ := pull
  if startOk then
    [BatchEvent.startBatchOk, BatchEvent.pullData, BatchEvent.endBatchCall]
  else [BatchEvent.startBatchFail]

/-- True exactly for the endBatch event. -/
def BatchEvent.isEndBatchCall : BatchEvent → Bool
  | endBatchCall => true
  | _ => false

/-- Number of end/DELETE calls in a trace. -/
def countEndCalls (evs : List BatchEvent) : Nat :=
  (evs.filter BatchEvent.isEndBatchCall).length

/- ### Stats counters along a dump

dumpCollection adds the size of the raw response body to
stats.totalReceived, inflates the body if the response was gzip-encoded
for transport, and hands the (possibly inflated, possibly
masking-transformed) bytes to dumpData, which adds the number of bytes it
wrote to stats.totalWritten only after the file write succeeded.  The
parallel writer thread performs the same sequence per batch (totalReceived
is bumped by the network thread before the batch is written).  Storage
compression happens inside ManagedDirectory.File.write, below both
counters, and therefore influences neither. -/

/-- The two byte counters of DumpFeature.Stats that the invariant claim
relates. -/
structure Stats where
  totalReceived : Nat
  totalWritten : Nat
deriving DecidableEq

/-- One server response carrying collection data: its raw body size on
the wire, whether it was gzip-encoded for transport (and then its
inflated size, produced by the external gzip codec), the output size of
the external masking transformation when maskings are configured, and
whether the file write succeeded. -/
structure ResponseChunk where
  rawSize : Nat
  gzipEncoded : Bool
  inflatedSize : Nat
  maskedLen : Option Nat
  writeOk : Bool
deriving DecidableEq

/-- Counter updates that one response causes in dumpCollection plus
dumpData (identically in runNetworkThread plus runWriterThread). -/
def applyChunk (s : Stats) (c : ResponseChunk) : Stats :=
  let received := s.totalReceived + c.rawSize
  let bodyLen := if c.gzipEncoded then c.inflatedSize else c.rawSize
  let writtenLen :=
    match c.maskedLen with
    | some m => m
    | none => bodyLen
  if c.writeOk then
    { totalReceived := received, totalWritten := s.totalWritten + writtenLen }
  else
    { totalReceived := received, totalWritten := s.totalWritten }

/-- Both counters after a sequence of responses.  The storage-compression
flag is carried to mirror the configuration the claim quantifies over;
the counters do not depend on it because file-level gzip happens below
the write call that is counted. -/
def statsAfter (_useGzipForStorage : Bool) (chunks : List ResponseChunk) :
    Stats :=
  chunks.foldl applyChunk { totalReceived := 0, totalWritten := 0 }

/- ### Block-counter telemetry

DumpFeature.ParallelDumpServer.countBlocker is

    auto actual = blockCounter[where].fetch_add(c);
    if (actual == 100) \x7b msg = locations[2 * where]; fetch_sub(100); \x7d
    else if (actual == -100) \x7b msg = locations[2 * where + 1]; fetch_add(100); \x7d

fetch_add returns the value the counter held BEFORE the addition, so the
diagnostic fires exactly when the pre-update value equals plus or minus
100, not when the update makes the counter reach or cross that bound. -/

/-- The two axes of the block counter. -/
inductive BlockAt where
  | kLocalQueue
  | kRemoteQueue
deriving DecidableEq

/-- Array index of an axis. -/
def BlockAt.idx : BlockAt → Nat
  | kLocalQueue => 0
  | kRemoteQueue => 1

/-- The locations array of countBlocker. -/
def blockerDiagnostics : List String :=
  ["writer threads - consider increasing the number of network threads",
   "network threads - consider increasing the number of local writer threads",
   "dbserver get batch - consider increasing the parallelism on dbservers",
   "dbserver put batch - consider increasing the number of network threads"]

/-- Embedding of countBlocker for one axis: given the counter value
before the call and the delta c, returns the counter value after the call
together with the diagnostic that was logged, if any. -/
def countBlocker (whereAt : BlockAt) (counter delta : Int) :
    Int × Option String :=
  let actual := counter
  if actual = 100 then
    (counter + delta - 100, blockerDiagnostics.get? (2 * whereAt.idx))
  else if actual = -100 then
    (counter + delta + 100, blockerDiagnostics.get? (2 * whereAt.idx + 1))
  else
    (counter + delta, none)

/- ### Structure files written by DumpCollectionJob.run

The structure file of a collection is opened as

    directory.writableFile(
        absl::StrCat(escapedName,
                     (options.clusterMode ? "" : ("_" + hexString)),
                     ".structure.json"), ...)

where hexString is the MD5 digest of the collection name (computed by the
external SslInterface) and escapedName comes from escapedCollectionName.
Its content is the collection definition merged with
parameters -> shadowCollections -> null under nullMeansRemove. -/

/-- Minimal JSON/VPack value model for collection definitions. -/
inductive JsonVal where
  | null
  | boolean (b : Bool)
  | num (n : Nat)
  | str (s : String)
  | arr (items : List JsonVal)
  | obj (fields : List (String × JsonVal))

/-- First value stored under a key in an object field list. -/
def jsonGet (fields : List (String × JsonVal)) (key : String) :
    Option JsonVal :=
  (fields.find? (fun p => p.1 == key)).map (fun p => p.2)

/-- Member lookup on a JSON value; none on non-objects. -/
def getMember : JsonVal → String → Option JsonVal
  | JsonVal.obj fields, key => jsonGet fields key
  | _, _ => none

/-- Value found under the cid or id attribute of the parameters object:
absent, a string, an unsigned number, or some other JSON value. -/
inductive IdSlice where
  | absent
  | strId (s : String)
  | numId (n : Nat)
  | otherVal
deriving DecidableEq

/-- Embedding of escapedCollectionName.  validateNameOk is the verdict of
the external CollectionNameValidator.validateName on the collection name;
cidSlice and idSlice are the values of parameters.cid and parameters.id
(cid is preferred, id is consulted only when cid is absent); and
randomFallback stands for the value the external RandomGenerator would
produce as a last resort. -/
def escapedCollectionName (validateNameOk : Bool) (name : String)
    (cidSlice idSlice : IdSlice) (randomFallback : Nat) : String :=
  if validateNameOk then name
  else
    let sl :=
      match cidSlice with
      | IdSlice.absent => idSlice
      | s => s
    match sl with
    | IdSlice.strId s => s
    | IdSlice.numId n => toString n
    | _ => toString randomFallback

/-- The structure-file name built by DumpCollectionJob.run: the MD5 part
is appended only in single-server mode (clusterMode = false). -/
def structureFileName (clusterMode : Bool) (escapedName hexString : String) :
    String :=
  escapedName ++ (if clusterMode then "" else "_" ++ hexString) ++
    ".structure.json"

/-- Transformation of one top-level field of the collection definition by
the merge below: the parameters subobject loses its shadowCollections
key, every other field is unchanged. -/
def stripField (p : String × JsonVal) : String × JsonVal :=
  if p.1 == "parameters" then
    (p.1,
      match p.2 with
      | JsonVal.obj pf =>
        JsonVal.obj (pf.filter (fun q => !(q.1 == "shadowCollections")))
      | v => v)
  else p

/-- Modelled from the external velocypack library: VPackCollection.merge
of the collection definition with the exclusion object
parameters -> shadowCollections -> null, with mergeObjects = true and
nullMeansRemove = true, removes the key shadowCollections from the
parameters subobject and leaves everything else unchanged. -/
def stripShadowCollections : JsonVal → JsonVal
  | JsonVal.obj fields => JsonVal.obj (fields.map stripField)
  | v => v

/-- One file write: target file name and written definition. -/
structure WriteOp where
  filename : String
  content : JsonVal

/-- The structure-file write performed by DumpCollectionJob.run. -/
def structureWrite (clusterMode : Bool) (escapedName hexString : String)
    (collectionInfo : JsonVal) : WriteOp :=
  { filename := structureFileName clusterMode escapedName hexString,
    content := stripShadowCollections collectionInfo }

/- ### getDatabases: sorting of the database list

getDatabases collects the string entries of the result array and then
runs std::sort with the comparator

    [](lhs, rhs) \x7b
      if (lhs == SystemDatabase && rhs != SystemDatabase) return true;
      else if (rhs == SystemDatabase && lhs != SystemDatabase) return false;
      return lhs < rhs;
    \x7d

std::sort is an unspecified comparison sort, so we model it by an
insertion sort over the same comparator: any comparator-consistent
permutation has the properties proved below. -/

/-- StaticStrings.SystemDatabase. -/
def systemDatabase : String := "_system"

/-- The comparator lambda passed to std::sort in getDatabases. -/
def dbNameLess (lhs rhs : String) : Bool :=
  if lhs = systemDatabase ∧ rhs ≠ systemDatabase then true
  else if rhs = systemDatabase ∧ lhs ≠ systemDatabase then false
  else decide (lhs < rhs)

/-- Ordered insertion consistent with dbNameLess. -/
def insertDb (x : String) : List String → List String
  | [] => [x]
  | y :: ys => if dbNameLess y x then y :: insertDb x ys else x :: y :: ys

/-- The sort applied to the database list. -/
def sortDatabases (dbs : List String) : List String :=
  dbs.foldr insertDb []

/-- The database names returned by getDatabases: the string entries of
the result array (non-strings are skipped), sorted. -/
def getDatabasesNames (items : List (Option String)) : List String :=
  sortDatabases (items.filterMap id)

/-- The order claimed for the processed list: a database may precede
another when it is the system database, or when the other one is not the
system database and it is lexicographically no larger. -/
def dbOrdered (a b : String) : Prop :=
  a = systemDatabase ∨ (b ≠ systemDatabase ∧ a ≤ b)

/- ### Lemmas about the database loop -/

theorem runDatabasesLoop_force (res : Bool) (l : List Bool) :
    runDatabasesLoop true res l = (lastOutcome res l, l.length) := by
  induction l generalizing res with
  | nil => rfl
  | cons r rest ih =>
    simp [runDatabasesLoop, lastOutcome, ih]

/-- C1.  The claim says: with force = true, iteration continues past a
failing database, errors are accumulated, and the exit code is non-zero
as soon as at least one database dump ended with an unrecovered error.
Counterexample: a run over two databases where the first dump fails (for
example its inventory request errors out) and the second succeeds.
Iteration does continue, but the Result variable is simply overwritten by
the second, successful dump, so the process exits with code 0 although a
database failed. -/
theorem c1_counterexample :
    dumpExitCode true [true, false] = 0 ∧
      (processDatabases true [true, false]).2 = 2 ∧
      [true, false].any id = true := by
  decide

/-- C1 (amended).  With force = true every database in the list is
processed, but errors are not aggregated across databases: the final
Result is simply the outcome of the last database processed (or the
initial success for an empty list), and the exit code is non-zero exactly
when that last outcome failed. -/
theorem c1_force_processes_all_exit_last (outcomes : List Bool) :
    (processDatabases true outcomes).2 = outcomes.length ∧
      dumpExitCode true outcomes =
        (if lastOutcome false outcomes then 1 else 0) := by
  refine ⟨?_, ?_⟩
  · simp [processDatabases, runDatabasesLoop_force]
  · simp [dumpExitCode, processDatabases, runDatabasesLoop_force]

/-- C8.  If any collection name in the collections restriction starts
with an underscore, DumpFeature.start force-enables
includeSystemCollections (regardless of the user setting), and
consequently the inventory filter in runDump never skips a collection
for being a system collection. -/
theorem c8_auto_include_system (prior : Bool) (collections : List String)
    (n : String) (hmem : n ∈ collections)
    (hsys : startsWithUnderscore n = true) :
    autoIncludeSystemCollections prior collections = true ∧
      ∀ name, excludedAsSystem
        (autoIncludeSystemCollections prior collections) name = false := by
  have hany : collections.any startsWithUnderscore = true :=
    List.any_eq_true.mpr ⟨n, hmem, hsys⟩
  refine ⟨?_, ?_⟩
  · simp [autoIncludeSystemCollections, hany]
  · intro name
    simp [excludedAsSystem, autoIncludeSystemCollections, hany]

theorem c8_auto_include_system_witness :
    autoIncludeSystemCollections false ["_apps", "users"] = true ∧
      ∀ name, excludedAsSystem
        (autoIncludeSystemCollections false ["_apps", "users"]) name = false :=
  c8_auto_include_system false ["_apps", "users"] "_apps"
    (by simp) (by decide)

/- ### Retry-loop lemmas -/

theorem createDumpContextLoop_attempts_le (resp : Nat → CreateResp) :
    ∀ retryCount attempt,
      (createDumpContextLoop resp attempt retryCount).attempts ≤
        attempt + max retryCount 1 := by
  intro retryCount
  induction retryCount with
  | zero =>
    intro attempt
    cases h : resp attempt <;>
      simp [createDumpContextLoop, h, CreateLoopResult.attempts]
  | succ rc ih =>
    intro attempt
    cases h : resp attempt with
    | success =>
      simp [createDumpContextLoop, h, CreateLoopResult.attempts]
    | fatalFail =>
      simp [createDumpContextLoop, h, CreateLoopResult.attempts]
    | retryableFail =>
      by_cases hrc : 0 < rc
      · have hrec := ih (attempt + 1)
        simp [createDumpContextLoop, h, hrc]
        omega
      · simp [createDumpContextLoop, h, hrc, CreateLoopResult.attempts]

theorem createDumpContextLoop_persistent (resp : Nat → CreateResp)
    (hresp : ∀ n, resp n = CreateResp.retryableFail) :
    ∀ retryCount attempt, 0 < retryCount →
      createDumpContextLoop resp attempt retryCount =
        CreateLoopResult.aborted (attempt + retryCount) := by
  intro retryCount
  induction retryCount with
  | zero => omega
  | succ rc ih =>
    intro attempt _
    by_cases hrc : 0 < rc
    · have hrec := ih (attempt + 1) hrc
      simp [createDumpContextLoop, hresp attempt, hrc, hrec]
      omega
    · have hrc0 : rc = 0 := by omega
      simp [createDumpContextLoop, hresp attempt, hrc0]

theorem receiveNextBatchLoop_attempts_le (resp : Nat → NextResp) :
    ∀ retryCount attempt,
      (receiveNextBatchLoop resp attempt retryCount).attempts ≤
        attempt + max retryCount 1 := by
  intro retryCount
  induction retryCount with
  | zero =>
    intro attempt
    cases h : resp attempt <;>
      simp [receiveNextBatchLoop, h, NextLoopResult.attempts]
  | succ rc ih =>
    intro attempt
    cases h : resp attempt with
    | retryableFail =>
      by_cases hrc : 0 < rc
      · have hrec := ih (attempt + 1)
        simp [receiveNextBatchLoop, h, hrc]
        omega
      · simp [receiveNextBatchLoop, h, hrc, NextLoopResult.attempts]
    | ok200 =>
      simp [receiveNextBatchLoop, h, NextLoopResult.attempts]
    | ok204 =>
      simp [receiveNextBatchLoop, h, NextLoopResult.attempts]
    | okOther =>
      simp [receiveNextBatchLoop, h, NextLoopResult.attempts]
    | fatalFail =>
      simp [receiveNextBatchLoop, h, NextLoopResult.attempts]

theorem receiveNextBatchLoop_persistent (resp : Nat → NextResp)
    (hresp : ∀ n, resp n = NextResp.retryableFail) :
    ∀ retryCount attempt, 0 < retryCount →
      receiveNextBatchLoop resp attempt retryCount =
        NextLoopResult.aborted (attempt + retryCount) := by
  intro retryCount
  induction retryCount with
  | zero => omega
  | succ rc ih =>
    intro attempt _
    by_cases hrc : 0 < rc
    · have hrec := ih (attempt + 1) hrc
      simp [receiveNextBatchLoop, hresp attempt, hrc, hrec]
      omega
    · have hrc0 : rc = 0 := by omega
      simp [receiveNextBatchLoop, hresp attempt, hrc0]

/-- C3.  Both retry-wrapped call-sites of the parallel dump path issue at
most 100 HTTP attempts in total, i.e. at most 99 retries after the first
attempt — in particular a 101st retry attempt never occurs — and under
persistently retryable failures both loops exhaust their budget after
exactly 100 attempts and end in FATAL_ERROR_EXIT, which aborts the
process. -/
theorem c3_retry_budget (respC : Nat → CreateResp) (respN : Nat → NextResp) :
    ((createDumpContext respC).attempts ≤ 100 ∧
      (receiveNextBatch respN).attempts ≤ 100) ∧
    ((∀ n, respC n = CreateResp.retryableFail) →
      createDumpContext respC = CreateLoopResult.aborted 100) ∧
    ((∀ n, respN n = NextResp.retryableFail) →
      receiveNextBatch respN = NextLoopResult.aborted 100) := by
  refine ⟨⟨?_, ?_⟩, ?_, ?_⟩
  · have h := createDumpContextLoop_attempts_le respC 100 0
    simpa [createDumpContext] using h
  · have h := receiveNextBatchLoop_attempts_le respN 100 0
    simpa [receiveNextBatch] using h
  · intro hresp
    have h := createDumpContextLoop_persistent respC hresp 100 0 (by omega)
    simpa [createDumpContext] using h
  · intro hresp
    have h := receiveNextBatchLoop_persistent respN hresp 100 0 (by omega)
    simpa [receiveNextBatch] using h

theorem c3_retry_budget_witness :
    ((createDumpContext fun _ => CreateResp.retryableFail).attempts ≤ 100 ∧
      (receiveNextBatch fun _ => NextResp.retryableFail).attempts ≤ 100) ∧
    createDumpContext (fun _ => CreateResp.retryableFail) =
      CreateLoopResult.aborted 100 ∧
    receiveNextBatch (fun _ => NextResp.retryableFail) =
      NextLoopResult.aborted 100 := by
  have h := c3_retry_budget (fun _ => CreateResp.retryableFail)
    (fun _ => NextResp.retryableFail)
  exact ⟨h.1, h.2.1 (fun n => rfl), h.2.2 (fun n => rfl)⟩

/- ### Chunk-size lemmas -/

theorem clampedInitial_le_clampedMax (userInit userMax : Nat) :
    clampedInitialChunkSize userInit ≤
      clampedMaxChunkSize userMax (clampedInitialChunkSize userInit) :=
  le_max_left _ _

theorem chunkSizeTrace_le_max (maxChunkSize initialChunkSize : Nat)
    (h : initialChunkSize ≤ maxChunkSize) :
    ∀ n, chunkSizeTrace maxChunkSize initialChunkSize n ≤ maxChunkSize := by
  intro n
  induction n with
  | zero => exact h
  | succ n ih =>
    simp only [chunkSizeTrace, nextChunkSize]
    split
    · split <;> omega
    · exact ih

/-- C4.  The claim derives that every successive chunk size is capped at
max_chunk_size or at least 1.5 times the previous one.  Counterexample:
an odd (clamp-surviving) value --initial-batch-size=131073 with the
default maximum.  The C++ growth step truncates chunkSize * 1.5 to an
integer, so the second chunk is 196609, which is neither the maximum nor
at least 1.5 times 131073 (2 * 196609 = 393218 < 393219 = 3 * 131073). -/
theorem c4_counterexample :
    chunkSizeTrace
        (clampedMaxChunkSize 100663296 (clampedInitialChunkSize 131073))
        (clampedInitialChunkSize 131073) 1 ≠
      clampedMaxChunkSize 100663296 (clampedInitialChunkSize 131073) ∧
    2 * chunkSizeTrace
        (clampedMaxChunkSize 100663296 (clampedInitialChunkSize 131073))
        (clampedInitialChunkSize 131073) 1 <
      3 * chunkSizeTrace
        (clampedMaxChunkSize 100663296 (clampedInitialChunkSize 131073))
        (clampedInitialChunkSize 131073) 0 := by
  constructor
  · decide
  · decide

/-- C4 (amended).  The chunk size starts at the clamped
initial_chunk_size and, whenever more data is pending, grows to
min(truncate(chunkSize * 1.5), max_chunk_size), where the truncated
product equals chunkSize + chunkSize / 2; consequently every successive
chunk size is either equal to max_chunk_size or exactly the previous
chunk size plus half of it rounded down (which is at least 1.5 times the
previous chunk size only when that is even). -/
theorem c4_chunk_growth (userInit userMax n : Nat) :
    chunkSizeTrace
        (clampedMaxChunkSize userMax (clampedInitialChunkSize userInit))
        (clampedInitialChunkSize userInit) 0 = clampedInitialChunkSize userInit ∧
    (chunkSizeTrace
        (clampedMaxChunkSize userMax (clampedInitialChunkSize userInit))
        (clampedInitialChunkSize userInit) (n + 1) =
      clampedMaxChunkSize userMax (clampedInitialChunkSize userInit) ∨
     chunkSizeTrace
        (clampedMaxChunkSize userMax (clampedInitialChunkSize userInit))
        (clampedInitialChunkSize userInit) (n + 1) =
      chunkSizeTrace
          (clampedMaxChunkSize userMax (clampedInitialChunkSize userInit))
          (clampedInitialChunkSize userInit) n +
        chunkSizeTrace
            (clampedMaxChunkSize userMax (clampedInitialChunkSize userInit))
            (clampedInitialChunkSize userInit) n / 2) := by
  refine ⟨rfl, ?_⟩
  have hle := chunkSizeTrace_le_max
    (clampedMaxChunkSize userMax (clampedInitialChunkSize userInit))
    (clampedInitialChunkSize userInit)
    (clampedInitial_le_clampedMax userInit userMax) n
  simp only [chunkSizeTrace, nextChunkSize]
  split
  · split
    · left; rfl
    · right; rfl
  · left; omega

/-- C10.  After endBatch returns, the caller batch id variable is 0,
whatever the DELETE request did: the result does not depend on the
response at all. -/
theorem c10_endBatch_resets_id (urlEncodeF : String → String)
    (clientIdStr DBserver : String) (requestSucceeded : Bool)
    (batchId : Nat) :
    (endBatch urlEncodeF clientIdStr DBserver requestSucceeded batchId).2 = 0 ∧
      endBatch urlEncodeF clientIdStr DBserver requestSucceeded batchId =
        endBatch urlEncodeF clientIdStr DBserver true batchId := by
  exact ⟨rfl, rfl⟩

/-- C5.  The claim says every batch session, including the per-shard
batches, is ended in a scope-guarded teardown so the end call still
happens when the pull terminates abnormally via a thrown exception.
Counterexample: a DumpShardJob whose startBatch succeeds and whose
dumpCollection throws.  The batch was created, but the trace contains no
endBatch call, because DumpShardJob.run calls endBatch sequentially after
dumpCollection instead of from a scope guard. -/
theorem c5_counterexample :
    BatchEvent.startBatchOk ∈ dumpShardJobEvents true PullOutcome.raised ∧
      countEndCalls (dumpShardJobEvents true PullOutcome.raised) = 0 := by
  decide

/-- C5 (amended).  For every batch session created by runSingleDump,
exactly one end call is issued, in a scope-guarded teardown that fires
even when the dump throws; for every per-shard batch created by
DumpShardJob.run, exactly one end call is issued when dumpCollection
returns normally (with a succeeding or failing Result), but none when it
throws, since that end call is sequential and not scope-guarded. -/
theorem c5_batch_end_calls (startOk : Bool) (pull : PullOutcome) :
    countEndCalls (runSingleDumpEvents startOk pull) =
      (if startOk then 1 else 0) ∧
    countEndCalls (dumpShardJobEvents startOk pull) =
      (if startOk && !pull.isRaised then 1 else 0) := by
  cases startOk <;> cases pull <;> exact (by decide)

/- ### Stats-invariant lemmas -/

theorem applyChunk_preserves (s : Stats) (c : ResponseChunk)
    (hgz : c.gzipEncoded = false) (hmask : c.maskedLen = none)
    (h : s.totalWritten ≤ s.totalReceived) :
    (applyChunk s c).totalWritten ≤ (applyChunk s c).totalReceived := by
  simp only [applyChunk, hgz, hmask]
  split <;> simp <;> omega

theorem foldl_applyChunk_preserves (l : List ResponseChunk)
    (hplain : ∀ c ∈ l, c.gzipEncoded = false ∧ c.maskedLen = none) :
    ∀ s : Stats, s.totalWritten ≤ s.totalReceived →
      (l.foldl applyChunk s).totalWritten ≤
        (l.foldl applyChunk s).totalReceived := by
  induction l with
  | nil => intro s h; simpa using h
  | cons c rest ih =>
    intro s h
    have hc := hplain c (List.mem_cons_self c rest)
    have hrest : ∀ x ∈ rest, x.gzipEncoded = false ∧ x.maskedLen = none :=
      fun x hx => hplain x (List.mem_cons_of_mem c hx)
    simpa using ih hrest (applyChunk s c)
      (applyChunk_preserves s c hc.1 hc.2 h)

/-- C6.  The claim says total_written ≤ total_received holds in every run
in which storage compression is disabled.  Counterexample: storage
compression disabled but transport compression in use, one response whose
10 raw bytes inflate to 100 bytes.  totalReceived counts the wire bytes,
totalWritten the inflated bytes, so the invariant is violated. -/
theorem c6_counterexample :
    statsAfter false
        [{ rawSize := 10, gzipEncoded := true, inflatedSize := 100,
           maskedLen := none, writeOk := true }] =
      { totalReceived := 10, totalWritten := 100 } ∧ (10 : Nat) < 100 := by
  decide

/-- C6 (amended).  In every run in which no response is gzip-encoded for
transport and no maskings are configured, total_written ≤ total_received
holds at every point of the run (after every prefix of the processed
responses), independently of the storage-compression setting. -/
theorem c6_written_le_received (useGzipForStorage : Bool)
    (chunks : List ResponseChunk)
    (hplain : ∀ c ∈ chunks, c.gzipEncoded = false ∧ c.maskedLen = none) :
    ∀ n, (statsAfter useGzipForStorage (chunks.take n)).totalWritten ≤
      (statsAfter useGzipForStorage (chunks.take n)).totalReceived := by
  intro n
  have hsub : ∀ c ∈ chunks.take n,
      c.gzipEncoded = false ∧ c.maskedLen = none :=
    fun c hc => hplain c (List.take_subset n chunks hc)
  simpa [statsAfter] using
    foldl_applyChunk_preserves (chunks.take n) hsub
      { totalReceived := 0, totalWritten := 0 } (by simp)

theorem c6_written_le_received_witness :
    (statsAfter true
        ([{ rawSize := 7, gzipEncoded := false, inflatedSize := 0,
            maskedLen := none, writeOk := true }].take 1)).totalWritten ≤
      (statsAfter true
        ([{ rawSize := 7, gzipEncoded := false, inflatedSize := 0,
            maskedLen := none, writeOk := true }].take 1)).totalReceived :=
  c6_written_le_received true
    [{ rawSize := 7, gzipEncoded := false, inflatedSize := 0,
       maskedLen := none, writeOk := true }] (by decide) 1

/-- C7.  The claim says a diagnostic is logged and the counter re-armed
whenever an axis reaches plus or minus 100, including when a
remote-reported delta larger than one makes it cross the threshold.
Counterexample: counter at 99, remote delta plus 5.  The counter crosses
100 (99 before, 104 after), yet countBlocker logs nothing and performs no
opposite-100 adjustment, because fetch_add returned 99, not 100. -/
theorem c7_counterexample :
    countBlocker BlockAt.kRemoteQueue 99 5 = (104, none) ∧
      (99 : Int) < 100 ∧ (100 : Int) ≤ 104 := by
  decide

/-- C7 (amended).  A diagnostic is logged exactly when the counter value
observed before applying the delta equals plus 100 or minus 100; in that
case the counter is additionally adjusted by the opposite 100 after the
delta is applied, and the diagnostic is the entry 2*axis respectively
2*axis+1 of the locations table.  An update whose delta makes the counter
reach or cross the threshold without the pre-update value being exactly
plus or minus 100 logs nothing and performs no adjustment. -/
theorem c7_block_counter (whereAt : BlockAt) (counter delta : Int) :
    ((countBlocker whereAt counter delta).2 ≠ none ↔
      (counter = 100 ∨ counter = -100)) ∧
    (counter = 100 →
      countBlocker whereAt counter delta =
        (counter + delta - 100, blockerDiagnostics.get? (2 * whereAt.idx))) ∧
    (counter = -100 →
      countBlocker whereAt counter delta =
        (counter + delta + 100,
          blockerDiagnostics.get? (2 * whereAt.idx + 1))) ∧
    (¬(counter = 100 ∨ counter = -100) →
      countBlocker whereAt counter delta = (counter + delta, none)) := by
  refine ⟨?_, ?_, ?_, ?_⟩
  · by_cases h1 : counter = 100
    · simp only [countBlocker, h1, if_pos rfl]
      cases whereAt <;> simp [BlockAt.idx, blockerDiagnostics]
    · by_cases h2 : counter = -100
      · simp only [countBlocker, if_neg h1, h2, if_pos rfl]
        cases whereAt <;> simp [BlockAt.idx, blockerDiagnostics]
      · simp [countBlocker, h1, h2]
  · intro h1
    simp [countBlocker, h1]
  · intro h2
    have h1 : counter ≠ 100 := by omega
    simp [countBlocker, h1, h2]
  · intro h
    push_neg at h
    simp [countBlocker, h.1, h.2]

/- ### Structure-file lemmas -/

theorem stripField_fst (p : String × JsonVal) : (stripField p).1 = p.1 := by
  unfold stripField
  split <;> rfl

theorem jsonGet_filter_key (pf : List (String × JsonVal)) (key : String) :
    jsonGet (pf.filter (fun q => !(q.1 == key))) key = none := by
  have hfind : List.find? (fun p => p.1 == key)
      (pf.filter (fun q => !(q.1 == key))) = none := by
    rw [List.find?_eq_none]
    intro x hx hcontra
    have hmem := List.mem_filter.mp hx
    rw [hcontra] at hmem
    simp at hmem
  simp [jsonGet, hfind]

theorem jsonGet_mapStrip (fields : List (String × JsonVal))
    (pf : List (String × JsonVal))
    (h : jsonGet (fields.map stripField) "parameters" =
      some (JsonVal.obj pf)) :
    jsonGet pf "shadowCollections" = none := by
  induction fields with
  | nil => simp [jsonGet] at h
  | cons hd tl ih =>
    rw [List.map_cons] at h
    by_cases hk : (hd.1 == "parameters") = true
    · have hhead : ((stripField hd).1 == "parameters") = true := by
        rw [stripField_fst]
        exact hk
      have hfind : List.find? (fun p => (p.1 == "parameters"))
          (stripField hd :: List.map stripField tl) =
            some (stripField hd) :=
        List.find?_cons_of_pos _ hhead
      rw [jsonGet, hfind] at h
      have h2 : (stripField hd).2 = JsonVal.obj pf := by
        simpa using h
      obtain ⟨k, v⟩ := hd
      have hk2 : (k == "parameters") = true := hk
      cases v with
      | obj pf0 =>
        simp [stripField, hk2] at h2
        rw [← h2]
        exact jsonGet_filter_key pf0 "shadowCollections"
      | null => simp [stripField, hk2] at h2
      | boolean b => simp [stripField, hk2] at h2
      | num n => simp [stripField, hk2] at h2
      | str s0 => simp [stripField, hk2] at h2
      | arr items => simp [stripField, hk2] at h2
    · have hhead : ((stripField hd).1 == "parameters") = false := by
        rw [stripField_fst]
        cases hbe : (hd.1 == "parameters") with
        | false => rfl
        | true => exact absurd hbe hk
      have hfind : List.find? (fun p => (p.1 == "parameters"))
          (stripField hd :: List.map stripField tl) =
            List.find? (fun p => (p.1 == "parameters"))
              (List.map stripField tl) :=
        List.find?_cons_of_neg _ (by simp [hhead])
      rw [jsonGet, hfind] at h
      exact ih h

theorem getMember_strip_parameters (info : JsonVal)
    (pf : List (String × JsonVal))
    (h : getMember (stripShadowCollections info) "parameters" =
      some (JsonVal.obj pf)) :
    jsonGet pf "shadowCollections" = none := by
  cases info with
  | obj fields =>
    simp only [stripShadowCollections, getMember] at h
    exact jsonGet_mapStrip fields pf h
  | null => simp [stripShadowCollections, getMember] at h
  | boolean b => simp [stripShadowCollections, getMember] at h
  | num n => simp [stripShadowCollections, getMember] at h
  | str s0 => simp [stripShadowCollections, getMember] at h
  | arr items => simp [stripShadowCollections, getMember] at h

/-- C2.  The claim says the structure file of a collection dumped on a
single server is named exactly escaped-name plus the suffix
.structure.json, for example users.structure.json.  Counterexample:
dumping collection users in single-server mode (clusterMode = false).
The code inserts an underscore plus the MD5 digest of the name before the
suffix, so the file is users_<digest>.structure.json, never
users.structure.json (the digest shown is a stand-in 32-character value;
the mismatch holds for every digest, see the amended theorem). -/
theorem c2_counterexample :
    escapedCollectionName true "users" IdSlice.absent IdSlice.absent 0 =
      "users" ∧
    (structureWrite false "users" "00000000000000000000000000000000"
        (JsonVal.obj [])).filename ≠ "users.structure.json" := by
  constructor
  · rfl
  · decide

/-- C2 (amended).  The structure file carries the collection definition
with parameters.shadowCollections stripped, and its name is the escaped
collection name immediately followed by .structure.json only in cluster
mode; on a single server it is the escaped name, an underscore, the MD5
digest of the name, and then .structure.json. -/
theorem c2_structure_file (escapedName hexString : String)
    (info : JsonVal) (pf : List (String × JsonVal)) :
    (structureWrite false escapedName hexString info).filename =
      escapedName ++ ("_" ++ hexString) ++ ".structure.json" ∧
    (structureWrite true escapedName hexString info).filename =
      escapedName ++ ".structure.json" ∧
    (getMember (structureWrite false escapedName hexString info).content
        "parameters" = some (JsonVal.obj pf) →
      jsonGet pf "shadowCollections" = none) := by
  refine ⟨?_, ?_, ?_⟩
  · simp [structureWrite, structureFileName]
  · simp [structureWrite, structureFileName]
  · intro h
    exact getMember_strip_parameters info pf h

theorem c2_structure_file_witness :
    jsonGet [("x", JsonVal.num 1)] "shadowCollections" = none := by
  have h := c2_structure_file "users" "abcd"
    (JsonVal.obj
      [("parameters",
        JsonVal.obj [("shadowCollections", JsonVal.null),
                     ("x", JsonVal.num 1)])])
    [("x", JsonVal.num 1)]
  exact h.2.2 (by rfl)

theorem c7_block_counter_witness :
    countBlocker BlockAt.kLocalQueue 100 3 =
      (100 + 3 - 100, blockerDiagnostics.get? (2 * BlockAt.kLocalQueue.idx)) := by
  have h := c7_block_counter BlockAt.kLocalQueue 100 3
  exact h.2.1 rfl

/- ### Sorting lemmas for getDatabases -/

theorem dbOrdered_trans {a b c : String} (h1 : dbOrdered a b)
    (h2 : dbOrdered b c) : dbOrdered a c := by
  rcases h1 with h1 | ⟨hb, hab⟩
  · exact Or.inl h1
  · rcases h2 with h2 | ⟨hc, hbc⟩
    · exact absurd h2 hb
    · exact Or.inr ⟨hc, le_trans hab hbc⟩

theorem dbOrdered_of_dbNameLess {y x : String}
    (h : dbNameLess y x = true) : dbOrdered y x := by
  unfold dbNameLess at h
  split at h
  · rename_i hcond
    exact Or.inl hcond.1
  · split at h
    · simp at h
    · rename_i h1 h2
      have hlt : y < x := of_decide_eq_true h
      by_cases hy : y = systemDatabase
      · exact Or.inl hy
      · push_neg at h2
        refine Or.inr ⟨?_, le_of_lt hlt⟩
        intro hx
        exact hy (h2 hx)

theorem dbOrdered_of_not_dbNameLess {y x : String}
    (h : dbNameLess y x = false) : dbOrdered x y := by
  unfold dbNameLess at h
  split at h
  · simp at h
  · split at h
    · rename_i hcond
      exact Or.inl hcond.1
    · rename_i h1 h2
      have hnlt : ¬(y < x) := of_decide_eq_false h
      have hxy : x ≤ y := le_of_not_lt hnlt
      by_cases hx : x = systemDatabase
      · exact Or.inl hx
      · push_neg at h1
        refine Or.inr ⟨?_, hxy⟩
        intro hy
        exact hx (h1 hy)

theorem insertDb_perm (x : String) (l : List String) :
    List.Perm (insertDb x l) (x :: l) := by
  induction l with
  | nil => exact List.Perm.refl _
  | cons y ys ih =>
    unfold insertDb
    split
    · exact ((ih.cons y).trans (List.Perm.swap x y ys))
    · exact List.Perm.refl _

theorem insertDb_pairwise (x : String) (l : List String)
    (h : List.Pairwise dbOrdered l) :
    List.Pairwise dbOrdered (insertDb x l) := by
  induction l with
  | nil => simp [insertDb]
  | cons y ys ih =>
    rw [List.pairwise_cons] at h
    unfold insertDb
    split
    · rename_i hyx
      rw [List.pairwise_cons]
      refine ⟨?_, ih h.2⟩
      intro z hz
      rw [(insertDb_perm x ys).mem_iff, List.mem_cons] at hz
      rcases hz with hz | hz
      · rw [hz]
        exact dbOrdered_of_dbNameLess hyx
      · exact h.1 z hz
    · rename_i hyx
      rw [Bool.not_eq_true] at hyx
      rw [List.pairwise_cons]
      refine ⟨?_, List.pairwise_cons.mpr h⟩
      intro z hz
      rw [List.mem_cons] at hz
      rcases hz with hz | hz
      · rw [hz]
        exact dbOrdered_of_not_dbNameLess hyx
      · exact dbOrdered_trans (dbOrdered_of_not_dbNameLess hyx) (h.1 z hz)

theorem sortDatabases_perm (dbs : List String) :
    List.Perm (sortDatabases dbs) dbs := by
  induction dbs with
  | nil => exact List.Perm.refl _
  | cons d rest ih =>
    have h1 := insertDb_perm d (sortDatabases rest)
    exact h1.trans (ih.cons d)

theorem sortDatabases_pairwise (dbs : List String) :
    List.Pairwise dbOrdered (sortDatabases dbs) := by
  induction dbs with
  | nil => simp [sortDatabases]
  | cons d rest ih => exact insertDb_pairwise d (sortDatabases rest) ih

/-- C9.  The database list obtained from /_api/database/user is processed
in sorted order: the result is a permutation of the extracted names, any
two consecutive positions respect the order (system database first, the
rest ascending lexicographically), and whenever the system database is in
the list it is the first element processed. -/
theorem c9_database_order (items : List (Option String)) :
    List.Perm (getDatabasesNames items) (items.filterMap id) ∧
    List.Pairwise dbOrdered (getDatabasesNames items) ∧
    (systemDatabase ∈ items.filterMap id →
      (getDatabasesNames items).head? = some systemDatabase) := by
  refine ⟨sortDatabases_perm _, sortDatabases_pairwise _, ?_⟩
  intro hmem
  have hmem2 : systemDatabase ∈ getDatabasesNames items :=
    (sortDatabases_perm (items.filterMap id)).mem_iff.mpr hmem
  have hpair : List.Pairwise dbOrdered (getDatabasesNames items) :=
    sortDatabases_pairwise (items.filterMap id)
  cases hlist : getDatabasesNames items with
  | nil =>
    rw [hlist] at hmem2
    simp at hmem2
  | cons hd tl =>
    rw [hlist] at hmem2 hpair
    rw [List.pairwise_cons] at hpair
    rw [List.mem_cons] at hmem2
    rcases hmem2 with hmem2 | hmem2
    · rw [hmem2]
      rfl
    · rcases hpair.1 systemDatabase hmem2 with hfirst | hfirst
      · rw [hfirst]
        rfl
      · exact absurd rfl hfirst.1

theorem c9_database_order_witness :
    List.Perm
      (getDatabasesNames [some "beta", none, some "_system", some "alpha"])
      ["beta", "_system", "alpha"] ∧
    List.Pairwise dbOrdered
      (getDatabasesNames [some "beta", none, some "_system", some "alpha"]) ∧
    (getDatabasesNames
        [some "beta", none, some "_system", some "alpha"]).head? =
      some systemDatabase := by
  have h := c9_database_order [some "beta", none, some "_system", some "alpha"]
  exact ⟨h.1, h.2.1, h.2.2 (by simp [systemDatabase])⟩

end ArangoDump
